import Mathlib

/-!
Shallow embedding of the `download-order-files` Vercel handler and its
helper modules (CORS configuration, admin auth service) from the
Sheepxixi/shopify-test repository, together with proofs of the behavioural
claims about them.

External collaborators (the Shopify GraphQL endpoint, raw HTTP fetch, the
URL parser of the platform) are modelled as oracles: function-valued fields
of a `World` structure.  JavaScript string primitives used by the code
(`trim`, `toLowerCase`, `startsWith`, `split`, `includes`,
`encodeURIComponent`, base64 decoding) are given executable list-based
models below.
-/

/-! ## JavaScript string primitives -/

/-- Model of the JavaScript `a || b` idiom on strings: the empty string is
falsy and is replaced by the fallback. -/
def jsOrS (a : Option String) (b : String) : String :=
  match a with
  | some v => if v = "" then b else v
  | none => b

/-- JavaScript truthiness of a possibly-absent string value. -/
def strTruthy : Option String → Bool
  | none => false
  | some s => s ≠ ""

/-- Whitespace recognised by the model of `String.prototype.trim`
(space, tab, line feed, carriage return, by code point). -/
def jsIsSpace (c : Char) : Bool :=
  c.toNat = 32 || c.toNat = 9 || c.toNat = 10 || c.toNat = 13

/-- Model of JavaScript `String.prototype.trim` (ASCII whitespace). -/
def jsTrim (s : String) : String :=
  ⟨((s.data.dropWhile jsIsSpace).reverse.dropWhile jsIsSpace).reverse⟩

/-- ASCII lower-casing of one character, as `String.prototype.toLowerCase`
performs on ASCII input. -/
def jsCharToLower (c : Char) : Char :=
  if 65 ≤ c.toNat ∧ c.toNat ≤ 90 then Char.ofNat (c.toNat + 32) else c

/-- Model of JavaScript `String.prototype.toLowerCase` (ASCII). -/
def jsToLower (s : String) : String :=
  ⟨s.data.map jsCharToLower⟩

/-- Prefix test on character lists. -/
def isPrefixList : List Char → List Char → Bool
  | [], _ => true
  | _ :: _, [] => false
  | a :: as, b :: bs => a = b && isPrefixList as bs

/-- Model of JavaScript `String.prototype.startsWith`. -/
def jsStartsWith (s pre : String) : Bool :=
  isPrefixList pre.data s.data

/-- Split a character list at every occurrence of a separator character. -/
def splitCharAux (sep : Char) : List Char → List Char → List String
  | [], acc => [⟨acc.reverse⟩]
  | x :: xs, acc =>
    if x = sep then ⟨acc.reverse⟩ :: splitCharAux sep xs []
    else splitCharAux sep xs (x :: acc)

/-- Model of JavaScript `String.prototype.split` with a one-character
separator. -/
def jsSplitChar (s : String) (sep : Char) : List String :=
  splitCharAux sep s.data []

/-- Model of JavaScript `String.prototype.includes` with a one-character
needle. -/
def jsIncludesChar (s : String) (c : Char) : Bool :=
  s.data.contains c

/-! ## Base64 decoding (model of Node `Buffer.from(data, 'base64')`) -/

/-- Value of one base64 alphabet character; `none` for characters outside
the alphabet (Node skips them leniently). -/
def b64Val (c : Char) : Option Nat :=
  if 65 ≤ c.toNat ∧ c.toNat ≤ 90 then some (c.toNat - 65)
  else if 97 ≤ c.toNat ∧ c.toNat ≤ 122 then some (c.toNat - 97 + 26)
  else if 48 ≤ c.toNat ∧ c.toNat ≤ 57 then some (c.toNat - 48 + 52)
  else if c = '+' then some 62
  else if c = '/' then some 63
  else none

/-- Reassemble 6-bit groups into bytes, dropping an incomplete trailing
byte, as the lenient Node decoder does. -/
def b64Chunks : List Nat → List Nat
  | a :: b :: c :: d :: rest =>
    (a * 4 + b / 16) :: ((b % 16) * 16 + c / 4) :: ((c % 4) * 64 + d) :: b64Chunks rest
  | [a, b] => [a * 4 + b / 16]
  | [a, b, c] => [a * 4 + b / 16, (b % 16) * 16 + c / 4]
  | _ => []

/-- Model of Node `Buffer.from(s, 'base64')` as a byte list. -/
def base64Decode (s : String) : List Nat :=
  b64Chunks (s.data.filterMap b64Val)

/-- The handler strips a `data:` URL header before decoding:
`data.includes(',') ? data.split(',')[1] : data`. -/
def stripDataHeader (data : String) : String :=
  if jsIncludesChar data ',' then (jsSplitChar data ',').getD 1 "" else data

/-! ## Data model of the draft order and its line items -/

/-- One `key`/`value` custom attribute of a line item. -/
structure CustomAttr where
  key : String
  value : String
deriving Repr, DecidableEq

/-- A draft-order line item as returned by the order query: title and
custom attributes. -/
structure LineItem where
  title : String
  customAttributes : List CustomAttr
deriving Repr, DecidableEq

/-- `getAttr` of the handler: value of the first attribute with the given
key, or `null`. -/
def getAttr (attrs : List CustomAttr) (key : String) : Option String :=
  (attrs.find? (fun a => a.key = key)).map (fun a => a.value)

/-- Display name of a line item:
`getAttr('文件') || lineItem.title || '未知文件'`. -/
def displayName (li : LineItem) : String :=
  jsOrS (getAttr li.customAttributes "文件") (jsOrS (some li.title) "未知文件")

/-- A processable file reference extracted from a line item: either a
direct Shopify CDN URL or an indirect metaobject identifier. -/
inductive FileRef where
  | shopifyUrl (fileName url : String)
  | metaobject (fileName fileId : String)
deriving Repr, DecidableEq

/-- Display name carried by a file reference. -/
def FileRef.fileName : FileRef → String
  | .shopifyUrl n _ => n
  | .metaobject n _ => n

/-- Classification of one line item (lines 197-228 of the handler): a
direct URL wins when the attribute is truthy, not the placeholder
`未上传`, and starts with `http`; otherwise a truthy `文件ID` attribute
gives a metaobject reference; otherwise the item is skipped. -/
def extractFileRef (li : LineItem) : Option FileRef :=
  let attrs := li.customAttributes
  let shopifyFileUrl := getAttr attrs "Shopify文件URL"
  let fileId := getAttr attrs "文件ID"
  if strTruthy shopifyFileUrl ∧ shopifyFileUrl ≠ some "未上传"
      ∧ jsStartsWith (shopifyFileUrl.getD "") "http" then
    some (.shopifyUrl (displayName li) (shopifyFileUrl.getD ""))
  else if strTruthy fileId then
    some (.metaobject (displayName li) (fileId.getD ""))
  else
    none

/-- File extraction over all line items; skipped items contribute
nothing. -/
def extractFiles (items : List LineItem) : List FileRef :=
  items.filterMap extractFileRef

/-! ## Metaobject lookup (`getFileFromMetaobject`) -/

/-- One `key`/`value` field of a metaobject record. -/
structure MetaField where
  key : String
  value : String
deriving Repr, DecidableEq

/-- A metaobject record as returned by the GraphQL queries. -/
structure MetaobjectNode where
  id : String
  handle : String
  fields : List MetaField
deriving Repr, DecidableEq

/-- Oracle for the two metaobject queries the code issues.  `byHandle`
models `metaobjectByHandle(handle, type)` (`.error` = the call threw,
`.ok none` = no record); `listNodes` models `metaobjects(type, first)`
returning the node list. -/
structure MetaobjectService where
  byHandle : String → String → Except String (Option MetaobjectNode)
  listNodes : String → Nat → Except String (List MetaobjectNode)

/-- Resolved file information: a secondary CDN URL or an inline base64
payload, each with a file name. -/
inductive FileRecordSource where
  | url (url fileName : String)
  | base64 (data fileName : String)
deriving Repr, DecidableEq

/-- `getField` of `getFileFromMetaobject`: field value by key, or `''`. -/
def getField (r : MetaobjectNode) (key : String) : String :=
  match r.fields.find? (fun x => x.key = key) with
  | some f => f.value
  | none => ""

/-- Fallback list search: first node whose `file_id` field equals the
requested id (lines 98-101). -/
def findByFileId (nodes : List MetaobjectNode) (fileId : String) : Option MetaobjectNode :=
  nodes.find? (fun node =>
    match node.fields.find? (fun x => x.key = "file_id") with
    | some f => f.value = fileId
    | none => false)

/-- Lines 111-130: turn a resolved record into file information.  A
`file_url` field starting with `http://` or `https://` is preferred; else
a truthy `file_data` field is used as base64; else the record is
unusable. -/
def recordToSource (r : MetaobjectNode) : Option FileRecordSource :=
  let fileUrl := getField r "file_url"
  let fileData := getField r "file_data"
  let fileName := jsOrS (some (getField r "file_name")) "download.bin"
  if fileUrl ≠ "" ∧ (jsStartsWith fileUrl "http://" || jsStartsWith fileUrl "https://") then
    some (.url fileUrl fileName)
  else if fileData ≠ "" then
    some (.base64 fileData fileName)
  else
    none

/-- `getFileFromMetaobject` (lines 61-131): exact-handle query first; on
nothing or error, fall back to listing the first 100 `uploaded_file`
records and filtering by `file_id`; then interpret the record. -/
def getFileFromMetaobject (svc : MetaobjectService) (fileId : String) :
    Option FileRecordSource :=
  let fromHandle : Option MetaobjectNode :=
    match svc.byHandle fileId "uploaded_file" with
    | .ok r => r
    | .error _ => none
  let fileRecord : Option MetaobjectNode :=
    match fromHandle with
    | some r => some r
    | none =>
      match svc.listNodes "uploaded_file" 100 with
      | .ok nodes => findByFileId nodes fileId
      | .error _ => none
  match fileRecord with
  | none => none
  | some r => recordToSource r

/-! ## The request world: external collaborators as oracles -/

/-- Result of the draft-order GraphQL query: a GraphQL-level error list
and the (possibly absent) order with its name and line items. -/
structure DraftOrder where
  name : Option String
  lineItems : List LineItem
deriving Repr, DecidableEq

/-- `shopGql` response for the draft-order query. -/
structure OrderQueryResult where
  errors : List String
  draftOrder : Option DraftOrder
deriving Repr, DecidableEq

/-- All external effects one request can observe, fixed per request:
the draft-order query (`.error` = the awaited call threw and the outer
catch fires), raw HTTP fetch by URL (`.error` = non-ok status or network
failure, i.e. `downloadFileFromShopify` threw), the metaobject lookup
service, availability of the JSZip library, and `Date.now()`. -/
structure World where
  draftOrderQuery : String → Except String OrderQueryResult
  fetchUrl : String → Except String (List Nat)
  meta : MetaobjectService
  jszipAvailable : Bool
  now : Nat

/-- `downloadFileFromShopify` (lines 46-58): fetch the URL; a non-ok
status or network error is a thrown error, which the oracle already
folds into `.error`. -/
def downloadFileFromShopify (w : World) (fileUrl : String) : Except String (List Nat) :=
  w.fetchUrl fileUrl

/-- Per-file materialization, the body of the download loop
(lines 254-280): bytes on success, the thrown message on failure. -/
def materialize (w : World) (f : FileRef) : Except String (List Nat) :=
  match f with
  | .shopifyUrl _ url => downloadFileFromShopify w url
  | .metaobject _ fileId =>
    match getFileFromMetaobject w.meta fileId with
    | none => .error "从Metaobject获取文件失败"
    | some (.url u _) => downloadFileFromShopify w u
    | some (.base64 d _) => .ok (base64Decode (stripDataHeader d))

/-- Content of one archive entry: raw bytes (`zip.file(name, buffer)`) or
text (`zip.file(name, string)`). -/
inductive ZipContent where
  | bin (bytes : List Nat)
  | text (s : String)
deriving Repr, DecidableEq

/-- Name of the placeholder entry for a failed file (line 291). -/
def errorEntryName (fileName : String) : String :=
  "错误_" ++ fileName ++ ".txt"

/-- Content of the placeholder entry for a failed file (line 291). -/
def errorEntryText (msg : String) : String :=
  "文件下载失败: " ++ msg

/-- Model of JSZip `zip.file(name, data)`: add-or-update.  When an entry
with the same name already exists it is replaced in place (JSZip stores
entries in a string-keyed object, and reassigning a key keeps its
original position); otherwise the new entry is appended. -/
def zipFile (entries : List (String × ZipContent)) (name : String)
    (content : ZipContent) : List (String × ZipContent) :=
  if entries.any (fun e => e.1 = name) then
    entries.map (fun e => if e.1 = name then (name, content) else e)
  else
    entries ++ [(name, content)]

/-- Outcome of the download loop: the archive entries (first-insertion
order, last same-named write wins) and the two counters. -/
structure BatchOutcome where
  entries : List (String × ZipContent)
  successCount : Nat
  failCount : Nat
deriving Repr, DecidableEq

/-- One iteration of the download loop (lines 254-292): a `zip.file`
call with the display name and the bytes on success, or with the
error-prefixed name and a text placeholder on failure, plus the matching
counter bump. -/
def processStep (w : World) (acc : BatchOutcome) (f : FileRef) : BatchOutcome :=
  match materialize w f with
  | .ok bytes =>
    ⟨zipFile acc.entries f.fileName (.bin bytes),
      acc.successCount + 1, acc.failCount⟩
  | .error msg =>
    ⟨zipFile acc.entries (errorEntryName f.fileName)
        (.text (errorEntryText msg)),
      acc.successCount, acc.failCount + 1⟩

/-- The download loop (lines 252-293), processing the extracted files in
source order against an initially empty archive. -/
def processFiles (w : World) (files : List FileRef) : BatchOutcome :=
  files.foldl (processStep w) ⟨[], 0, 0⟩

/-- The archive entry a single file reference produces. -/
def entryFor (w : World) (f : FileRef) : String × ZipContent :=
  match materialize w f with
  | .ok bytes => (f.fileName, .bin bytes)
  | .error msg => (errorEntryName f.fileName, .text (errorEntryText msg))

/-! ## CORS configuration -/

/-- Origin of an http(s) URL, as `new URL(referer).origin` computes it.
Modelled for http and https URLs without userinfo or an explicit port;
other inputs answer `none` (the code catches the parse failure). -/
def urlOrigin (s : String) : Option String :=
  if jsStartsWith s "https://" then
    let host := ⟨(s.data.drop 8).takeWhile (fun c => c ≠ '/' && c ≠ '?' && c ≠ '#')⟩
    if host = "" then none else some ("https://" ++ host)
  else if jsStartsWith s "http://" then
    let host := ⟨(s.data.drop 7).takeWhile (fun c => c ≠ '/' && c ≠ '?' && c ≠ '#')⟩
    if host = "" then none else some ("http://" ++ host)
  else none

/-- Allow-list of the standalone `setCorsHeaders` bundled next to the
download handler (lines 332-337). -/
def downloadCorsAllowedOrigins : List String :=
  ["https://sain-pdc-test.myshopify.com",
   "http://localhost:3000",
   "http://127.0.0.1:3000",
   "https://shopify-test-brown.vercel.app"]

/-- `Access-Control-Allow-Origin` value computed by the standalone
`setCorsHeaders` (lines 339-345): echo a truthy allow-listed Origin
header, else the default store domain. -/
def downloadCorsAllow (origin : Option String) : String :=
  match origin with
  | some o =>
    if o ≠ "" ∧ o ∈ downloadCorsAllowedOrigins then o
    else "https://sain-pdc-test.myshopify.com"
  | none => "https://sain-pdc-test.myshopify.com"

/-- Allow-list of the shared `utils/cors-config.js` `setCorsHeaders`
(lines 57-63 of that file). -/
def configCorsAllowedOrigins : List String :=
  ["https://sain-pdc-test.myshopify.com",
   "https://happy-july.myshopify.com",
   "http://localhost:3000",
   "http://127.0.0.1:3000"]

/-- Effective origin of the shared `setCorsHeaders` (lines 65-73 of
`utils/cors-config.js`): the Origin header, falling back to the parsed
origin of the Referer header when Origin is absent or empty. -/
def configCorsEffectiveOrigin (origin referer : Option String) : String :=
  let headerOrigin := origin.getD ""
  if headerOrigin = "" then
    match referer with
    | none => headerOrigin
    | some r =>
      if r = "" then headerOrigin
      else
        match urlOrigin r with
        | some o => o
        | none => headerOrigin
  else headerOrigin

/-- `Access-Control-Allow-Origin` value of the shared `setCorsHeaders`
(line 76 of `utils/cors-config.js`): echo the effective origin when
allow-listed, else the default store domain. -/
def configCorsAllow (origin referer : Option String) : String :=
  let eff := configCorsEffectiveOrigin origin referer
  if eff ∈ configCorsAllowedOrigins then eff else "https://sain-pdc-test.myshopify.com"

/-! ## Percent encoding (model of `encodeURIComponent`) -/

/-- Characters `encodeURIComponent` leaves unescaped:
letters, digits, and `- _ . ! ~ * ' ( )`. -/
def uriUnreserved (c : Char) : Bool :=
  c.isAlpha || c.isDigit || [45, 95, 46, 33, 126, 42, 39, 40, 41].contains c.toNat

/-- UTF-8 bytes of one character. -/
def utf8Bytes (c : Char) : List Nat :=
  let n := c.toNat
  if n < 128 then [n]
  else if n < 2048 then [192 + n / 64, 128 + n % 64]
  else if n < 65536 then [224 + n / 4096, 128 + (n / 64) % 64, 128 + n % 64]
  else [240 + n / 262144, 128 + (n / 4096) % 64, 128 + (n / 64) % 64, 128 + n % 64]

/-- One uppercase hexadecimal digit. -/
def hexDigit (n : Nat) : Char :=
  if n < 10 then Char.ofNat (48 + n) else Char.ofNat (55 + n)

/-- Percent-escape of one byte, e.g. `%23`. -/
def percentByte (b : Nat) : String :=
  ⟨['%', hexDigit (b / 16), hexDigit (b % 16)]⟩

/-- Concatenation of a list of strings. -/
def strConcat : List String → String
  | [] => ""
  | s :: rest => s ++ strConcat rest

/-- Encoding of one character: kept verbatim when unreserved, else each
UTF-8 byte percent-escaped. -/
def encodeChar (c : Char) : String :=
  if uriUnreserved c then ⟨[c]⟩ else strConcat ((utf8Bytes c).map percentByte)

/-- Model of JavaScript `encodeURIComponent`. -/
def encodeURIComponent (s : String) : String :=
  strConcat (s.data.map encodeChar)

/-! ## The HTTP handler -/

/-- The parts of the incoming request the handler reads. -/
structure Request where
  method : String
  draftOrderId : Option String
  origin : Option String
  referer : Option String
deriving Repr, DecidableEq

/-- Response body: empty (`res.end()`), a JSON error object (identified
by its `error`/`message` string), or the archive. -/
inductive RespBody where
  | empty
  | json (error : String)
  | zip (entries : List (String × ZipContent))
deriving Repr, DecidableEq

/-- The observable response: status, body, the Content-Disposition header
when set, and the `Access-Control-Allow-Origin` header. -/
structure Response where
  status : Nat
  body : RespBody
  contentDisposition : Option String
  allowOrigin : String
deriving Repr, DecidableEq

/-- The generated archive name (line 311):
`${draftOrder.name || 'order'}_files_${Date.now()}.zip`. -/
def zipFileName (name : Option String) (now : Nat) : String :=
  jsOrS name "order" ++ "_files_" ++ toString now ++ ".zip"

/-- The Content-Disposition header value (line 314). -/
def contentDispositionFor (name : Option String) (now : Nat) : String :=
  "attachment; filename=\"" ++ encodeURIComponent (zipFileName name now) ++ "\""

/-- The `download-order-files` handler (lines 133-328), as a pure
function of the request and the world of external collaborators. -/
def handler (w : World) (req : Request) : Response :=
  let cors := configCorsAllow req.origin req.referer
  if req.method = "OPTIONS" then
    ⟨204, .empty, none, cors⟩
  else if req.method ≠ "GET" then
    ⟨405, .json "Method not allowed", none, cors⟩
  else if ¬ strTruthy req.draftOrderId then
    ⟨400, .json "Missing draftOrderId parameter", none, cors⟩
  else
    match w.draftOrderQuery (req.draftOrderId.getD "") with
    | .error _ => ⟨500, .json "批量下载失败", none, cors⟩
    | .ok result =>
      if result.errors ≠ [] then
        ⟨500, .json "查询订单失败", none, cors⟩
      else
        match result.draftOrder with
        | none => ⟨404, .json "订单未找到", none, cors⟩
        | some order =>
          let files := extractFiles order.lineItems
          if files = [] then
            ⟨404, .json "未找到可下载的文件", none, cors⟩
          else if ¬ w.jszipAvailable then
            ⟨500, .json "ZIP打包功能不可用", none, cors⟩
          else
            let batch := processFiles w files
            if batch.successCount = 0 then
              ⟨500, .json "所有文件下载失败", none, cors⟩
            else
              ⟨200, .zip batch.entries,
                some (contentDispositionFor order.name w.now), cors⟩

/-! ## Admin auth service (`AuthService`) -/

/-- `normalizeEmail`: empty for a missing value, else trimmed and
lower-cased. -/
def normalizeEmail (email : Option String) : String :=
  match email with
  | none => ""
  | some s => if s = "" then "" else jsToLower (jsTrim s)

/-- `parseAdminWhitelist`: the `ADMIN_EMAIL_WHITELIST` environment value
or the built-in default, split on commas, normalised, blanks dropped. -/
def parseAdminWhitelist (env : Option String) : List String :=
  let raw := jsOrS env "jonathan.wang@sainstore.com,issac.yu@sainstore.com"
  ((jsSplitChar raw ',').map (fun e => jsToLower (jsTrim e))).filter (fun e => e ≠ "")

/-- `isAdmin`: whitelist membership of the normalised email. -/
def isAdmin (env : Option String) (email : Option String) : Bool :=
  (parseAdminWhitelist env).contains (normalizeEmail email)

/-- A loosely-typed request parameter as the `admin` flag arrives:
a string, a boolean, or absent. -/
inductive JsVal where
  | str (s : String)
  | bool (b : Bool)
  | undef
deriving Repr, DecidableEq

/-- `String(admin || '')`: falsy values collapse to the empty string
first, then the value is stringified. -/
def adminFlagString : JsVal → String
  | .str s => s
  | .bool b => if b then "true" else ""
  | .undef => ""

/-- `hasAdminPermission` (lines 68-78 of the auth service): the flag must
stringify and lower-case to `1`, `true` or `yes`, and the normalised
email must be whitelisted (the code normalises it a second time inside
`isAdmin`). -/
def hasAdminPermission (env : Option String) (email : Option String) (admin : JsVal) : Bool :=
  let normalizedEmail := normalizeEmail email
  let adminFlag := ["1", "true", "yes"].contains (jsToLower (adminFlagString admin))
  adminFlag && isAdmin env (some normalizedEmail)

/-- Success test on a materialization result. -/
def exceptOk : Except String (List Nat) → Bool
  | .ok _ => true
  | .error _ => false

/-- Whether an archive entry content is a real binary file. -/
def ZipContent.isBin : ZipContent → Bool
  | .bin _ => true
  | .text _ => false

/-- Whether an archive entry content is an error-placeholder text. -/
def ZipContent.isText : ZipContent → Bool
  | .bin _ => false
  | .text _ => true

/-! ## Concrete fixtures used to exercise the theorems -/

/-- Line item with a valid direct URL whose fetch succeeds in `wEx`. -/
def liDirectOk : LineItem :=
  ⟨"item1", [⟨"文件", "a.png"⟩, ⟨"Shopify文件URL", "http://cdn.example/a"⟩]⟩

/-- Line item with a valid direct URL whose fetch fails in `wEx`. -/
def liDirectBad : LineItem :=
  ⟨"item2", [⟨"文件", "b.png"⟩, ⟨"Shopify文件URL", "http://cdn.example/b"⟩]⟩

/-- Line item whose `文件ID` attribute is present but empty. -/
def liEmptyId : LineItem := ⟨"item3", [⟨"文件ID", ""⟩]⟩

/-- Line item with an indirect metaobject reference. -/
def liMeta : LineItem := ⟨"item4", [⟨"文件", "c.bin"⟩, ⟨"文件ID", "f1"⟩]⟩

/-- Order with one succeeding and one failing direct-URL file. -/
def orderEx : DraftOrder := ⟨some "#D1001", [liDirectOk, liDirectBad]⟩

/-- Order whose only line item is skipped by extraction. -/
def orderNoFiles : DraftOrder := ⟨some "#D1001", [liEmptyId]⟩

/-- Order whose only file reference fails to materialize. -/
def orderAllFail : DraftOrder := ⟨some "#D1001", [liDirectBad]⟩

/-- Metaobject record resolving to a secondary CDN URL. -/
def recUrl : MetaobjectNode :=
  ⟨"gid-m1", "f1", [⟨"file_url", "https://cdn.example/x"⟩, ⟨"file_name", "x.bin"⟩]⟩

/-- Metaobject record carrying an inline base64 payload (`QUJD` = ABC). -/
def recB64 : MetaobjectNode :=
  ⟨"gid-m2", "f2",
   [⟨"file_id", "f2"⟩, ⟨"file_data", "QUJD"⟩, ⟨"file_name", "y.bin"⟩]⟩

/-- Metaobject service: handle `f1` resolves directly, everything else
falls back to the list query whose nodes hold `recB64`. -/
def metaSvcEx : MetaobjectService :=
  ⟨fun h _ => if h = "f1" then .ok (some recUrl) else .ok none,
   fun _ _ => .ok [recB64]⟩

/-- World with three known orders and one fetchable URL. -/
def wEx : World :=
  ⟨fun id =>
      if id = "gid1" then .ok ⟨[], some orderEx⟩
      else if id = "gidNoFiles" then .ok ⟨[], some orderNoFiles⟩
      else if id = "gidAllFail" then .ok ⟨[], some orderAllFail⟩
      else .ok ⟨[], none⟩,
   fun u =>
      if u = "http://cdn.example/a" then .ok [1, 2, 3]
      else .error "下载失败: 404 Not Found",
   metaSvcEx, true, 1234567890⟩

/-- A second, observably different world. -/
def wEx2 : World :=
  ⟨fun _ => .ok ⟨[], none⟩, fun _ => .error "network", metaSvcEx, false, 5⟩

/-- Request shorthand with no Origin and no Referer header. -/
def reqEx (method : String) (id : Option String) : Request :=
  ⟨method, id, none, none⟩

/-- Line item sharing the display name `dup.png`, first URL. -/
def liDupA : LineItem :=
  ⟨"itemA", [⟨"文件", "dup.png"⟩, ⟨"Shopify文件URL", "http://cdn.example/a"⟩]⟩

/-- Line item sharing the display name `dup.png`, second URL. -/
def liDupC : LineItem :=
  ⟨"itemC", [⟨"文件", "dup.png"⟩, ⟨"Shopify文件URL", "http://cdn.example/c"⟩]⟩

/-- Order with two successes under the same display name plus one
failing file. -/
def orderDup : DraftOrder := ⟨some "#D1001", [liDupA, liDupC, liDirectBad]⟩

/-- World where both `dup.png` URLs succeed with different bytes and the
duplicate-name order is reachable. -/
def wEx3 : World :=
  ⟨fun id =>
      if id = "gidDup" then .ok ⟨[], some orderDup⟩
      else .ok ⟨[], none⟩,
   fun u =>
      if u = "http://cdn.example/a" then .ok [1, 2, 3]
      else if u = "http://cdn.example/c" then .ok [9]
      else .error "下载失败: 404 Not Found",
   metaSvcEx, true, 1234567890⟩

/-! ## Helper lemmas about the JavaScript string models -/

theorem jsIsSpace_iff (c : Char) :
    jsIsSpace c = true ↔ (c.toNat = 32 ∨ c.toNat = 9 ∨ c.toNat = 10 ∨ c.toNat = 13) := by
  simp [jsIsSpace]
  tauto

theorem jsCharToLower_apply (c : Char) :
    jsCharToLower c =
      if 65 ≤ c.toNat ∧ c.toNat ≤ 90 then Char.ofNat (c.toNat + 32) else c := rfl

theorem jsCharToLower_toNat (c : Char) (h : 65 ≤ c.toNat ∧ c.toNat ≤ 90) :
    (jsCharToLower c).toNat = c.toNat + 32 := by
  have hv : (c.toNat + 32).isValidChar := Or.inl (by omega)
  unfold jsCharToLower
  rw [if_pos h]
  simp only [Char.ofNat]
  rw [dif_pos hv]
  rfl

theorem jsCharToLower_idem (c : Char) :
    jsCharToLower (jsCharToLower c) = jsCharToLower c := by
  by_cases h : 65 ≤ c.toNat ∧ c.toNat ≤ 90
  · have ht := jsCharToLower_toNat c h
    have h2 : ¬ (65 ≤ (jsCharToLower c).toNat ∧ (jsCharToLower c).toNat ≤ 90) := by
      rw [ht]; omega
    conv_lhs => rw [jsCharToLower_apply]
    rw [if_neg h2]
  · have hc : jsCharToLower c = c := by rw [jsCharToLower_apply, if_neg h]
    rw [hc, hc]

theorem jsIsSpace_lower (c : Char) : jsIsSpace (jsCharToLower c) = jsIsSpace c := by
  by_cases h : 65 ≤ c.toNat ∧ c.toNat ≤ 90
  · have ht := jsCharToLower_toNat c h
    have l1 : jsIsSpace (jsCharToLower c) = false := by
      rw [Bool.eq_false_iff]
      intro hsp
      rw [jsIsSpace_iff, ht] at hsp
      omega
    have l2 : jsIsSpace c = false := by
      rw [Bool.eq_false_iff]
      intro hsp
      rw [jsIsSpace_iff] at hsp
      omega
    rw [l1, l2]
  · unfold jsCharToLower
    rw [if_neg h]

theorem map_lower_idem (l : List Char) :
    (l.map jsCharToLower).map jsCharToLower = l.map jsCharToLower := by
  induction l with
  | nil => rfl
  | cons a l ih => simp [jsCharToLower_idem, ih]

theorem jsToLower_idem (s : String) : jsToLower (jsToLower s) = jsToLower s := by
  apply String.ext
  simpa [jsToLower] using map_lower_idem s.data

theorem dropWhile_rdropWhile_self {p : Char → Bool} {X : List Char}
    (hX : X.dropWhile p = X) :
    (X.rdropWhile p).dropWhile p = X.rdropWhile p := by
  cases h : X.rdropWhile p with
  | nil => simp
  | cons a s =>
    obtain ⟨t, ht⟩ := List.rdropWhile_prefix p X
    rw [h] at ht
    have ha : ¬ p a = true := by
      rw [← ht] at hX
      intro hpa
      simp only [List.cons_append, List.dropWhile_cons, if_pos hpa] at hX
      have hlen := (List.dropWhile_sublist (p := p) (l := s ++ t)).length_le
      rw [hX] at hlen
      simp at hlen
    simp [List.dropWhile_cons, ha]

theorem jsTrim_data (t : String) :
    (jsTrim t).data = List.rdropWhile jsIsSpace (t.data.dropWhile jsIsSpace) := rfl

theorem jsTrim_idem (s : String) : jsTrim (jsTrim s) = jsTrim s := by
  apply String.ext
  simp only [jsTrim_data]
  rw [dropWhile_rdropWhile_self (List.dropWhile_idempotent _ _)]
  exact List.rdropWhile_idempotent _ _

theorem jsTrim_jsToLower (s : String) :
    jsTrim (jsToLower s) = jsToLower (jsTrim s) := by
  apply String.ext
  have hpf : (jsIsSpace ∘ jsCharToLower) = jsIsSpace := funext jsIsSpace_lower
  show ((((s.data.map jsCharToLower).dropWhile jsIsSpace).reverse.dropWhile
          jsIsSpace).reverse)
      = ((((s.data.dropWhile jsIsSpace).reverse.dropWhile
          jsIsSpace).reverse).map jsCharToLower)
  rw [List.dropWhile_map, hpf, ← List.map_reverse, List.dropWhile_map, hpf,
    ← List.map_reverse]

theorem normalizeEmail_idem (e : Option String) :
    normalizeEmail (some (normalizeEmail e)) = normalizeEmail e := by
  cases e with
  | none => rfl
  | some s =>
    by_cases hs : s = ""
    · simp [normalizeEmail, hs]
    · simp only [normalizeEmail, if_neg hs]
      by_cases hn : jsToLower (jsTrim s) = ""
      · rw [if_pos hn, hn]
      · rw [if_neg hn, jsTrim_jsToLower, jsTrim_idem, jsToLower_idem]

/-! ## Helper lemmas about the download loop and the archive -/

theorem processStep_entries (w : World) (acc : BatchOutcome) (f : FileRef) :
    (processStep w acc f).entries
      = zipFile acc.entries (entryFor w f).1 (entryFor w f).2 := by
  cases h : materialize w f <;> simp [processStep, entryFor, h]

theorem processStep_successCount (w : World) (acc : BatchOutcome) (f : FileRef) :
    (processStep w acc f).successCount
      = acc.successCount + (if exceptOk (materialize w f) then 1 else 0) := by
  cases h : materialize w f <;> simp [processStep, h, exceptOk]

theorem processStep_failCount (w : World) (acc : BatchOutcome) (f : FileRef) :
    (processStep w acc f).failCount
      = acc.failCount + (if exceptOk (materialize w f) then 0 else 1) := by
  cases h : materialize w f <;> simp [processStep, h, exceptOk]

theorem processFold_successCount (w : World) (files : List FileRef) :
    ∀ acc : BatchOutcome,
      ((files.foldl (processStep w) acc)).successCount
        = acc.successCount
          + files.countP (fun f => exceptOk (materialize w f)) := by
  induction files with
  | nil => intro acc; simp
  | cons f rest ih =>
    intro acc
    simp only [List.foldl_cons, List.countP_cons, ih,
      processStep_successCount]
    cases hb : exceptOk (materialize w f) <;> simp [hb] <;> omega

theorem processFold_failCount (w : World) (files : List FileRef) :
    ∀ acc : BatchOutcome,
      ((files.foldl (processStep w) acc)).failCount
        = acc.failCount
          + files.countP (fun f => ! exceptOk (materialize w f)) := by
  induction files with
  | nil => intro acc; simp
  | cons f rest ih =>
    intro acc
    simp only [List.foldl_cons, List.countP_cons, ih, processStep_failCount]
    cases hb : exceptOk (materialize w f) <;> simp [hb] <;> omega

theorem processFiles_successCount (w : World) (files : List FileRef) :
    (processFiles w files).successCount
      = files.countP (fun f => exceptOk (materialize w f)) := by
  simpa [processFiles] using processFold_successCount w files ⟨[], 0, 0⟩

theorem processFiles_failCount (w : World) (files : List FileRef) :
    (processFiles w files).failCount
      = files.countP (fun f => ! exceptOk (materialize w f)) := by
  simpa [processFiles] using processFold_failCount w files ⟨[], 0, 0⟩

theorem zipFile_of_fresh {entries : List (String × ZipContent)}
    {name : String} (content : ZipContent)
    (h : name ∉ entries.map Prod.fst) :
    zipFile entries name content = entries ++ [(name, content)] := by
  unfold zipFile
  rw [if_neg]
  intro hc
  rw [List.any_eq_true] at hc
  obtain ⟨e, he, heq⟩ := hc
  exact h (List.mem_map.mpr ⟨e, he, of_decide_eq_true heq⟩)

theorem zipFile_mem_self (entries : List (String × ZipContent))
    (name : String) (content : ZipContent) :
    (name, content) ∈ zipFile entries name content := by
  unfold zipFile
  by_cases h : entries.any (fun e => e.1 = name) = true
  · rw [if_pos h]
    rw [List.any_eq_true] at h
    obtain ⟨e, he, heq⟩ := h
    exact List.mem_map.mpr ⟨e, he, by simp [of_decide_eq_true heq]⟩
  · rw [if_neg h]
    exact List.mem_append_right _ (List.mem_singleton.mpr rfl)

theorem zipFile_mem_preserve {entries : List (String × ZipContent)}
    {n : String} {c : ZipContent} (m : String) (c' : ZipContent)
    (hne : n ≠ m) (h : (n, c) ∈ entries) :
    (n, c) ∈ zipFile entries m c' := by
  unfold zipFile
  by_cases hb : entries.any (fun e => e.1 = m) = true
  · rw [if_pos hb]
    exact List.mem_map.mpr ⟨(n, c), h, by simp [hne]⟩
  · rw [if_neg hb]
    exact List.mem_append_left _ h

theorem processFold_entries_of_nodup (w : World) :
    ∀ (files : List FileRef) (acc : BatchOutcome),
      (∀ n ∈ acc.entries.map Prod.fst,
          n ∉ files.map (fun f => (entryFor w f).1)) →
      (files.map (fun f => (entryFor w f).1)).Nodup →
      (files.foldl (processStep w) acc).entries
        = acc.entries ++ files.map (entryFor w) := by
  intro files
  induction files with
  | nil =>
    intro acc _ _
    simp
  | cons f rest ih =>
    intro acc hdisj hnodup
    simp only [List.map_cons] at hnodup
    simp only [List.map_cons, List.mem_cons, not_or] at hdisj
    simp only [List.foldl_cons]
    have hfresh : (entryFor w f).1 ∉ acc.entries.map Prod.fst := by
      intro hmem
      exact (hdisj _ hmem).1 rfl
    have hstep : (processStep w acc f).entries
        = acc.entries ++ [entryFor w f] := by
      rw [processStep_entries, zipFile_of_fresh _ hfresh]
    rw [ih (processStep w acc f) ?_ (List.Nodup.of_cons hnodup)]
    · rw [hstep, List.append_assoc]
      simp
    · intro n hn
      rw [hstep] at hn
      rw [List.map_append, List.mem_append] at hn
      rcases hn with hn | hn
      · exact (hdisj n hn).2
      · have hn2 : n = (entryFor w f).1 := by simpa using hn
        rw [hn2]
        exact (List.nodup_cons.mp hnodup).1

theorem processFiles_entries_of_nodup (w : World) (files : List FileRef)
    (h : (files.map (fun f => (entryFor w f).1)).Nodup) :
    (processFiles w files).entries = files.map (entryFor w) := by
  simpa [processFiles] using
    processFold_entries_of_nodup w files ⟨[], 0, 0⟩ (by simp) h

theorem processFold_mem_preserve (w : World) :
    ∀ (l2 : List FileRef) (acc : BatchOutcome) {n : String} {c : ZipContent},
      (n, c) ∈ acc.entries → (∀ g ∈ l2, (entryFor w g).1 ≠ n) →
      (n, c) ∈ (l2.foldl (processStep w) acc).entries := by
  intro l2
  induction l2 with
  | nil =>
    intro acc n c h _
    simpa using h
  | cons g rest ih =>
    intro acc n c h hlater
    simp only [List.foldl_cons]
    refine ih _ ?_ (fun g' hg' => hlater g' (by simp [hg']))
    rw [processStep_entries]
    exact zipFile_mem_preserve _ _
      (fun he => hlater g (by simp) he.symm) h

theorem strConcat_append (l1 l2 : List String) :
    strConcat (l1 ++ l2) = strConcat l1 ++ strConcat l2 := by
  induction l1 with
  | nil => simp [strConcat]
  | cons a l ih => simp [strConcat, ih, String.append_assoc]

theorem encodeURIComponent_append (a b : String) :
    encodeURIComponent (a ++ b) = encodeURIComponent a ++ encodeURIComponent b := by
  simp only [encodeURIComponent]
  rw [show (a ++ b).data = a.data ++ b.data from rfl, List.map_append, strConcat_append]

/-- Once the method, parameter, order-query, extraction and library gates
all pass, the handler is decided by the download loop alone. -/
theorem handler_run (w : World) (req : Request) (result : OrderQueryResult)
    (order : DraftOrder)
    (hm : req.method = "GET")
    (hid : strTruthy req.draftOrderId = true)
    (hq : w.draftOrderQuery (req.draftOrderId.getD "") = .ok result)
    (he : result.errors = [])
    (ho : result.draftOrder = some order)
    (hne : extractFiles order.lineItems ≠ [])
    (hz : w.jszipAvailable = true) :
    handler w req =
      if (processFiles w (extractFiles order.lineItems)).successCount = 0 then
        ⟨500, .json "所有文件下载失败", none, configCorsAllow req.origin req.referer⟩
      else
        ⟨200, .zip (processFiles w (extractFiles order.lineItems)).entries,
          some (contentDispositionFor order.name w.now),
          configCorsAllow req.origin req.referer⟩ := by
  simp only [handler, hm, hid, hq, he, ho, hz, hne]
  simp

/-! ## Claims -/

/-- Claim C8: a request whose method is neither GET nor OPTIONS gets a
405 response with the JSON error `Method not allowed` before any order
lookup or file processing happens (the response is independent of every
external collaborator), and an OPTIONS request gets 204 with no body and
only the CORS headers. -/
theorem handler_method_gate (w w2 : World) (req : Request) :
    (req.method ≠ "GET" → req.method ≠ "OPTIONS" →
      handler w req
        = ⟨405, .json "Method not allowed", none,
            configCorsAllow req.origin req.referer⟩
        ∧ handler w req = handler w2 req) ∧
    (req.method = "OPTIONS" →
      handler w req
        = ⟨204, .empty, none, configCorsAllow req.origin req.referer⟩
        ∧ handler w req = handler w2 req) := by
  constructor
  · intro hg ho
    have h1 : handler w req
        = ⟨405, .json "Method not allowed", none,
            configCorsAllow req.origin req.referer⟩ := by
      simp [handler, hg, ho]
    have h2 : handler w2 req
        = ⟨405, .json "Method not allowed", none,
            configCorsAllow req.origin req.referer⟩ := by
      simp [handler, hg, ho]
    exact ⟨h1, h1.trans h2.symm⟩
  · intro ho
    have h1 : handler w req
        = ⟨204, .empty, none, configCorsAllow req.origin req.referer⟩ := by
      simp [handler, ho]
    have h2 : handler w2 req
        = ⟨204, .empty, none, configCorsAllow req.origin req.referer⟩ := by
      simp [handler, ho]
    exact ⟨h1, h1.trans h2.symm⟩

/-- Witness for C8 at a concrete POST request and two concrete worlds. -/
theorem handler_method_gate_witness :
    (handler wEx (reqEx "POST" (some "gid1"))
        = ⟨405, .json "Method not allowed", none, configCorsAllow none none⟩
      ∧ handler wEx (reqEx "POST" (some "gid1"))
        = handler wEx2 (reqEx "POST" (some "gid1"))) ∧
    (handler wEx (reqEx "OPTIONS" none)
        = ⟨204, .empty, none, configCorsAllow none none⟩
      ∧ handler wEx (reqEx "OPTIONS" none)
        = handler wEx2 (reqEx "OPTIONS" none)) :=
  ⟨(handler_method_gate wEx wEx2 (reqEx "POST" (some "gid1"))).1
      (by decide) (by decide),
   (handler_method_gate wEx wEx2 (reqEx "OPTIONS" none)).2 (by decide)⟩

/-- Claim C5: an order that is found but yields zero processable file
entries gets a 404 with the no-files error `未找到可下载的文件`, which is
distinct from the order-not-found error `订单未找到`, and no archive body
is ever produced. -/
theorem handler_no_files (w : World) (req : Request) (result : OrderQueryResult)
    (order : DraftOrder)
    (hm : req.method = "GET")
    (hid : strTruthy req.draftOrderId = true)
    (hq : w.draftOrderQuery (req.draftOrderId.getD "") = .ok result)
    (he : result.errors = [])
    (ho : result.draftOrder = some order)
    (hk : extractFiles order.lineItems = []) :
    handler w req
      = ⟨404, .json "未找到可下载的文件", none,
          configCorsAllow req.origin req.referer⟩
    ∧ ("未找到可下载的文件" : String) ≠ "订单未找到"
    ∧ ∀ entries, (handler w req).body ≠ .zip entries := by
  have h1 : handler w req
      = ⟨404, .json "未找到可下载的文件", none,
          configCorsAllow req.origin req.referer⟩ := by
    simp [handler, hm, hid, hq, he, ho, hk]
  refine ⟨h1, by decide, ?_⟩
  intro entries
  rw [h1]
  simp

/-- Witness for C5: an order whose only line item carries an empty
`文件ID` attribute is skipped, so extraction is empty. -/
theorem handler_no_files_witness :
    handler wEx (reqEx "GET" (some "gidNoFiles"))
      = ⟨404, .json "未找到可下载的文件", none, configCorsAllow none none⟩
    ∧ ("未找到可下载的文件" : String) ≠ "订单未找到"
    ∧ ∀ entries,
        (handler wEx (reqEx "GET" (some "gidNoFiles"))).body ≠ .zip entries :=
  handler_no_files wEx (reqEx "GET" (some "gidNoFiles"))
    ⟨[], some orderNoFiles⟩ orderNoFiles
    (by decide) (by decide) (by rfl) (by rfl) (by rfl) (by decide)

theorem entryFor_isBin (w : World) (f : FileRef) :
    (entryFor w f).2.isBin = exceptOk (materialize w f) := by
  cases h : materialize w f <;>
    simp [entryFor, h, exceptOk, ZipContent.isBin]

theorem entryFor_isText (w : World) (f : FileRef) :
    (entryFor w f).2.isText = ! exceptOk (materialize w f) := by
  cases h : materialize w f <;>
    simp [entryFor, h, exceptOk, ZipContent.isText]

/-- Claim C4: when the order has at least one processable file entry but
every materialization fails, the handler answers 500 with the
all-downloads-failed error `所有文件下载失败`, and no archive body is ever
emitted. -/
theorem handler_all_downloads_failed (w : World) (req : Request)
    (result : OrderQueryResult) (order : DraftOrder)
    (hm : req.method = "GET")
    (hid : strTruthy req.draftOrderId = true)
    (hq : w.draftOrderQuery (req.draftOrderId.getD "") = .ok result)
    (he : result.errors = [])
    (ho : result.draftOrder = some order)
    (hne : extractFiles order.lineItems ≠ [])
    (hz : w.jszipAvailable = true)
    (hs : (processFiles w (extractFiles order.lineItems)).successCount = 0) :
    handler w req
      = ⟨500, .json "所有文件下载失败", none,
          configCorsAllow req.origin req.referer⟩
    ∧ ∀ entries, (handler w req).body ≠ .zip entries := by
  have h1 := handler_run w req result order hm hid hq he ho hne hz
  rw [if_pos hs] at h1
  refine ⟨h1, fun entries => ?_⟩
  rw [h1]
  simp

/-- Witness for C4: the only file of `orderAllFail` fails to download. -/
theorem handler_all_downloads_failed_witness :
    handler wEx (reqEx "GET" (some "gidAllFail"))
      = ⟨500, .json "所有文件下载失败", none, configCorsAllow none none⟩
    ∧ ∀ entries,
        (handler wEx (reqEx "GET" (some "gidAllFail"))).body ≠ .zip entries :=
  handler_all_downloads_failed wEx (reqEx "GET" (some "gidAllFail"))
    ⟨[], some orderAllFail⟩ orderAllFail
    (by decide) (by decide) (by rfl) (by rfl) (by rfl) (by decide) (by rfl)
    (by decide)

/-- Counterexample to C1 as stated: `orderDup` yields two successes under
the same display name `dup.png` plus one failure, so s = 2 and f = 1, the
response is 200 and its body is the produced archive — but because JSZip
`file()` overwrites a same-named entry, the archive holds only one binary
entry instead of s, and only 2 entries in total instead of s + f: an
entry was silently dropped. -/
theorem handler_duplicate_names_counterexample :
    (processFiles wEx3 (extractFiles orderDup.lineItems)).successCount = 2
    ∧ (processFiles wEx3 (extractFiles orderDup.lineItems)).failCount = 1
    ∧ (handler wEx3 (reqEx "GET" (some "gidDup"))).status = 200
    ∧ (handler wEx3 (reqEx "GET" (some "gidDup"))).body
        = .zip (processFiles wEx3 (extractFiles orderDup.lineItems)).entries
    ∧ List.countP (fun e => e.2.isBin)
          (processFiles wEx3 (extractFiles orderDup.lineItems)).entries = 1
    ∧ (processFiles wEx3 (extractFiles orderDup.lineItems)).entries.length
        = 2 := by
  refine ⟨by decide, by decide, by decide, by decide, by decide, by decide⟩

/-- Claim C1 (amended): when the extracted file entries of a found order
yield both successes and failures AND the archive names they produce
(display names for successes, error-prefixed names for failures) are
pairwise distinct, the handler answers 200 and the archive holds one
entry per processed file in order — a binary entry under the display name
with the downloaded bytes for each success, and an error-prefixed text
placeholder for each failure — with the counts matching and nothing
dropped.  (Without that distinctness, JSZip replaces a same-named entry
in place, keeping the first position and the last content.) -/
theorem handler_mixed_archive (w : World) (req : Request)
    (result : OrderQueryResult) (order : DraftOrder)
    (hm : req.method = "GET")
    (hid : strTruthy req.draftOrderId = true)
    (hq : w.draftOrderQuery (req.draftOrderId.getD "") = .ok result)
    (he : result.errors = [])
    (ho : result.draftOrder = some order)
    (hz : w.jszipAvailable = true)
    (hnodup : ((extractFiles order.lineItems).map
        (fun f => (entryFor w f).1)).Nodup)
    (hs : 0 < (processFiles w (extractFiles order.lineItems)).successCount)
    (hf : 0 < (processFiles w (extractFiles order.lineItems)).failCount) :
    handler w req
      = ⟨200, .zip ((extractFiles order.lineItems).map (entryFor w)),
          some (contentDispositionFor order.name w.now),
          configCorsAllow req.origin req.referer⟩
    ∧ ((extractFiles order.lineItems).map (entryFor w)).length
        = (extractFiles order.lineItems).length
    ∧ List.countP (fun e => e.2.isBin)
          ((extractFiles order.lineItems).map (entryFor w))
        = (processFiles w (extractFiles order.lineItems)).successCount
    ∧ List.countP (fun e => e.2.isText)
          ((extractFiles order.lineItems).map (entryFor w))
        = (processFiles w (extractFiles order.lineItems)).failCount
    ∧ (∀ f ∈ extractFiles order.lineItems, ∀ bytes,
          materialize w f = .ok bytes →
          (f.fileName, ZipContent.bin bytes)
            ∈ (extractFiles order.lineItems).map (entryFor w))
    ∧ (∀ f ∈ extractFiles order.lineItems, ∀ msg,
          materialize w f = .error msg →
          (errorEntryName f.fileName, ZipContent.text (errorEntryText msg))
            ∈ (extractFiles order.lineItems).map (entryFor w)) := by
  have hne : extractFiles order.lineItems ≠ [] := by
    intro h
    rw [h] at hs
    simp [processFiles] at hs
  have hbody : (processFiles w (extractFiles order.lineItems)).entries
      = (extractFiles order.lineItems).map (entryFor w) :=
    processFiles_entries_of_nodup w _ hnodup
  have h1 := handler_run w req result order hm hid hq he ho hne hz
  rw [if_neg (Nat.pos_iff_ne_zero.mp hs)] at h1
  rw [hbody] at h1
  refine ⟨h1, List.length_map _ _, ?_, ?_, ?_, ?_⟩
  · rw [List.countP_map, processFiles_successCount]
    exact List.countP_congr fun f _ => by
      simp [Function.comp, entryFor_isBin]
  · rw [List.countP_map, processFiles_failCount]
    exact List.countP_congr fun f _ => by
      simp [Function.comp, entryFor_isText]
  · intro f hmem bytes hok
    have : entryFor w f = (f.fileName, ZipContent.bin bytes) := by
      simp [entryFor, hok]
    exact this ▸ List.mem_map_of_mem (entryFor w) hmem
  · intro f hmem msg herr
    have : entryFor w f = (errorEntryName f.fileName,
        ZipContent.text (errorEntryText msg)) := by
      simp [entryFor, herr]
    exact this ▸ List.mem_map_of_mem (entryFor w) hmem

/-- Witness for C1 (amended): `orderEx` yields one succeeding and one
failing file with distinct archive names, and the archive holds exactly
the success entry and the error placeholder. -/
theorem handler_mixed_archive_witness :
    handler wEx (reqEx "GET" (some "gid1"))
      = ⟨200,
          .zip [("a.png", .bin [1, 2, 3]),
                ("错误_b.png.txt", .text "文件下载失败: 下载失败: 404 Not Found")],
          some (contentDispositionFor (some "#D1001") 1234567890),
          configCorsAllow none none⟩ :=
  (handler_mixed_archive wEx (reqEx "GET" (some "gid1"))
    ⟨[], some orderEx⟩ orderEx rfl rfl rfl rfl rfl rfl
    (by decide) (by decide) (by decide)).1

/-- Counterexample to C6 as stated: the first file of `orderDup` is a
DirectUrl entry with display name `dup.png` whose fetch succeeds with
bytes `[1, 2, 3]`, yet the produced archive does not contain
`(dup.png, [1, 2, 3])` — the later same-named file overwrote it with
`[9]`. -/
theorem handler_direct_overwrite_counterexample :
    FileRef.shopifyUrl "dup.png" "http://cdn.example/a"
        ∈ extractFiles orderDup.lineItems
    ∧ wEx3.fetchUrl "http://cdn.example/a" = .ok [1, 2, 3]
    ∧ (handler wEx3 (reqEx "GET" (some "gidDup"))).status = 200
    ∧ (handler wEx3 (reqEx "GET" (some "gidDup"))).body
        = .zip [("dup.png", .bin [9]),
                ("错误_b.png.txt", .text "文件下载失败: 下载失败: 404 Not Found")]
    ∧ ∀ entries,
        (handler wEx3 (reqEx "GET" (some "gidDup"))).body = .zip entries →
        ("dup.png", ZipContent.bin [1, 2, 3]) ∉ entries := by
  refine ⟨by decide, by rfl, by decide, by decide, ?_⟩
  intro entries he
  have hb : RespBody.zip [("dup.png", ZipContent.bin [9]),
      ("错误_b.png.txt",
        ZipContent.text "文件下载失败: 下载失败: 404 Not Found")]
      = RespBody.zip entries := by
    rw [← he]
    decide
  have hent : entries = [("dup.png", ZipContent.bin [9]),
      ("错误_b.png.txt",
        ZipContent.text "文件下载失败: 下载失败: 404 Not Found")] :=
    (RespBody.zip.injEq _ _ ▸ hb).symm
  rw [hent]
  decide

/-- Claim C6 (amended): a DirectUrl file entry whose HTTP fetch succeeds
with bytes `B`, and after which no later processed entry produces the
same archive name, appears in the produced archive under exactly its
display name with content byte-identical to `B`, and the response is
200.  (A later same-named entry would overwrite the content, since JSZip
`file()` updates an existing name in place.) -/
theorem handler_direct_roundtrip (w : World) (req : Request)
    (result : OrderQueryResult) (order : DraftOrder)
    (name url : String) (bytes : List Nat) (l1 l2 : List FileRef)
    (hm : req.method = "GET")
    (hid : strTruthy req.draftOrderId = true)
    (hq : w.draftOrderQuery (req.draftOrderId.getD "") = .ok result)
    (he : result.errors = [])
    (ho : result.draftOrder = some order)
    (hz : w.jszipAvailable = true)
    (hsplit : extractFiles order.lineItems
        = l1 ++ FileRef.shopifyUrl name url :: l2)
    (hlater : ∀ g ∈ l2, (entryFor w g).1 ≠ name)
    (hfetch : w.fetchUrl url = .ok bytes) :
    (handler w req).status = 200
    ∧ ∃ entries, (handler w req).body = .zip entries
        ∧ (name, ZipContent.bin bytes) ∈ entries := by
  have hmem : FileRef.shopifyUrl name url ∈ extractFiles order.lineItems := by
    rw [hsplit]
    exact List.mem_append_right _ (List.mem_cons_self _ _)
  have hne : extractFiles order.lineItems ≠ [] := List.ne_nil_of_mem hmem
  have hokf : materialize w (.shopifyUrl name url) = .ok bytes := hfetch
  have hs : 0 < (processFiles w (extractFiles order.lineItems)).successCount := by
    rw [processFiles_successCount]
    exact List.countP_pos_iff.mpr
      ⟨FileRef.shopifyUrl name url, hmem, by simp [hokf, exceptOk]⟩
  have h1 := handler_run w req result order hm hid hq he ho hne hz
  rw [if_neg (Nat.pos_iff_ne_zero.mp hs)] at h1
  rw [h1]
  refine ⟨rfl, (processFiles w (extractFiles order.lineItems)).entries,
    rfl, ?_⟩
  rw [processFiles, hsplit, List.foldl_append, List.foldl_cons]
  refine processFold_mem_preserve w l2 _ ?_ hlater
  rw [processStep_entries]
  have hent : entryFor w (.shopifyUrl name url)
      = (name, ZipContent.bin bytes) := by
    simp [entryFor, hokf, FileRef.fileName]
  rw [hent]
  exact zipFile_mem_self _ _ _

/-- Witness for C6 (amended) at the succeeding direct file of `orderEx`:
the only later entry is the error placeholder `错误_b.png.txt`, so the
name `a.png` survives unmodified. -/
theorem handler_direct_roundtrip_witness :
    (handler wEx (reqEx "GET" (some "gid1"))).status = 200
    ∧ ∃ entries, (handler wEx (reqEx "GET" (some "gid1"))).body = .zip entries
        ∧ ("a.png", ZipContent.bin [1, 2, 3]) ∈ entries :=
  handler_direct_roundtrip wEx (reqEx "GET" (some "gid1"))
    ⟨[], some orderEx⟩ orderEx "a.png" "http://cdn.example/a" [1, 2, 3]
    [] [FileRef.shopifyUrl "b.png" "http://cdn.example/b"]
    rfl rfl rfl rfl rfl rfl (by decide) (by decide) rfl

theorem encodeURIComponent_zip_suffix (x : String) :
    encodeURIComponent (x ++ ".zip") = encodeURIComponent x ++ ".zip" := by
  rw [encodeURIComponent_append]
  rfl

/-- Claim C7: on a successful response the Content-Disposition filename
is the order name (or the fallback literal `order`) concatenated with the
request timestamp and a `.zip` suffix, percent-encoded — so it always
ends in `.zip`. -/
theorem handler_filename (w : World) (req : Request)
    (result : OrderQueryResult) (order : DraftOrder)
    (hm : req.method = "GET")
    (hid : strTruthy req.draftOrderId = true)
    (hq : w.draftOrderQuery (req.draftOrderId.getD "") = .ok result)
    (he : result.errors = [])
    (ho : result.draftOrder = some order)
    (hne : extractFiles order.lineItems ≠ [])
    (hz : w.jszipAvailable = true)
    (hs : (processFiles w (extractFiles order.lineItems)).successCount ≠ 0) :
    (handler w req).status = 200
    ∧ (handler w req).contentDisposition
        = some ("attachment; filename=\""
            ++ encodeURIComponent
                (jsOrS order.name "order" ++ "_files_" ++ toString w.now ++ ".zip")
            ++ "\"")
    ∧ ∃ p, encodeURIComponent
          (jsOrS order.name "order" ++ "_files_" ++ toString w.now ++ ".zip")
        = p ++ ".zip" := by
  have h1 := handler_run w req result order hm hid hq he ho hne hz
  rw [if_neg hs] at h1
  rw [h1]
  refine ⟨rfl, rfl, ?_⟩
  exact ⟨encodeURIComponent (jsOrS order.name "order" ++ "_files_" ++ toString w.now),
    encodeURIComponent_zip_suffix _⟩

/-- Witness for C7: order name `#D1001`, timestamp `1234567890`; the
escaped filename is `%23D1001_files_1234567890.zip`. -/
theorem handler_filename_witness :
    (handler wEx (reqEx "GET" (some "gid1"))).status = 200
    ∧ (handler wEx (reqEx "GET" (some "gid1"))).contentDisposition
        = some "attachment; filename=\"%23D1001_files_1234567890.zip\""
    ∧ ∃ p, encodeURIComponent
          (jsOrS (some "#D1001") "order" ++ "_files_" ++ toString 1234567890 ++ ".zip")
        = p ++ ".zip" :=
  handler_filename wEx (reqEx "GET" (some "gid1"))
    ⟨[], some orderEx⟩ orderEx rfl rfl rfl rfl rfl (by decide) rfl (by decide)

/-- Counterexample to C2 as stated: a line item whose indirect
file-identifier attribute `文件ID` is present (with an empty value) while
no direct URL attribute exists is nevertheless classified Missing
(excluded), not IndirectReference. -/
theorem extract_empty_id_counterexample :
    getAttr liEmptyId.customAttributes "Shopify文件URL" = none
    ∧ getAttr liEmptyId.customAttributes "文件ID" = some ""
    ∧ extractFileRef liEmptyId = none := by decide

/-- Claim C2 (amended): classification applies the priority order with
first match winning — a direct URL attribute that is present,
non-placeholder and starts with `http` gives DirectUrl; otherwise an
indirect identifier attribute that is present with a NON-EMPTY value
gives IndirectReference; otherwise (including a present-but-empty
identifier) the item is Missing and excluded.  Each line item yields
exactly one of these three outcomes. -/
theorem extractFileRef_classification (li : LineItem) :
    (∀ u, getAttr li.customAttributes "Shopify文件URL" = some u →
        u ≠ "未上传" → jsStartsWith u "http" = true →
        extractFileRef li = some (.shopifyUrl (displayName li) u)) ∧
    ((∀ u, getAttr li.customAttributes "Shopify文件URL" = some u →
        u = "未上传" ∨ jsStartsWith u "http" = false) →
      ∀ i, getAttr li.customAttributes "文件ID" = some i → i ≠ "" →
        extractFileRef li = some (.metaobject (displayName li) i)) ∧
    ((∀ u, getAttr li.customAttributes "Shopify文件URL" = some u →
        u = "未上传" ∨ jsStartsWith u "http" = false) →
      (∀ i, getAttr li.customAttributes "文件ID" = some i → i = "") →
      extractFileRef li = none) := by
  refine ⟨?_, ?_, ?_⟩
  · intro u hu hne hsw
    have hnn : u ≠ "" := by
      intro h0
      rw [h0] at hsw
      exact absurd hsw (by decide)
    simp [extractFileRef, hu, strTruthy, hnn, hne, hsw]
  · intro hfail i hi hine
    cases hu : getAttr li.customAttributes "Shopify文件URL" with
    | none => simp [extractFileRef, hu, hi, strTruthy, hine]
    | some u =>
      rcases hfail u hu with h | h
      · subst h
        simp [extractFileRef, hu, hi, strTruthy, hine]
      · simp [extractFileRef, hu, hi, strTruthy, hine, h]
  · intro hfail hempty
    cases hu : getAttr li.customAttributes "Shopify文件URL" with
    | none =>
      cases hi : getAttr li.customAttributes "文件ID" with
      | none => simp [extractFileRef, hu, hi, strTruthy]
      | some i => simp [extractFileRef, hu, hi, strTruthy, hempty i hi]
    | some u =>
      rcases hfail u hu with h | h
      · subst h
        cases hi : getAttr li.customAttributes "文件ID" with
        | none => simp [extractFileRef, hu, hi, strTruthy]
        | some i => simp [extractFileRef, hu, hi, strTruthy, hempty i hi]
      · cases hi : getAttr li.customAttributes "文件ID" with
        | none => simp [extractFileRef, hu, hi, strTruthy, h]
        | some i => simp [extractFileRef, hu, hi, strTruthy, h, hempty i hi]

/-- Witness for C2 (amended) on all three branches, at concrete line
items. -/
theorem extractFileRef_classification_witness :
    extractFileRef liDirectOk
      = some (.shopifyUrl "a.png" "http://cdn.example/a")
    ∧ extractFileRef liMeta = some (.metaobject "c.bin" "f1")
    ∧ extractFileRef liEmptyId = none :=
  ⟨(extractFileRef_classification liDirectOk).1 "http://cdn.example/a"
      (by decide) (by decide) (by decide),
   (extractFileRef_classification liMeta).2.1
      (by decide) "f1" (by decide) (by decide),
   (extractFileRef_classification liEmptyId).2.2
      (by decide) (by decide)⟩

/-- Claim C3: indirect resolution queries by exact handle first and uses
that record when found; on nothing or an error it falls back to the
bounded list query (`uploaded_file`, first 100) filtered on `file_id`.  A
record whose `file_url` starts with `http://` or `https://` resolves to a
secondary URL (preferred over inline data) and materialization then
delegates to the DirectUrl fetch path; otherwise a non-empty `file_data`
payload is base64-decoded to bytes; with neither, or with no record at
all, the materialization of the entry fails. -/
theorem getFileFromMetaobject_spec :
    (∀ (svc : MetaobjectService) (fid : String) (r : MetaobjectNode),
        svc.byHandle fid "uploaded_file" = .ok (some r) →
        getFileFromMetaobject svc fid = recordToSource r) ∧
    (∀ (svc : MetaobjectService) (fid : String),
        (svc.byHandle fid "uploaded_file" = .ok none ∨
          ∃ e, svc.byHandle fid "uploaded_file" = .error e) →
        getFileFromMetaobject svc fid =
          match svc.listNodes "uploaded_file" 100 with
          | .ok nodes => (findByFileId nodes fid).bind recordToSource
          | .error _ => none) ∧
    (∀ r : MetaobjectNode,
        (jsStartsWith (getField r "file_url") "http://" = true ∨
          jsStartsWith (getField r "file_url") "https://" = true) →
        recordToSource r
          = some (.url (getField r "file_url")
              (jsOrS (some (getField r "file_name")) "download.bin"))) ∧
    (∀ r : MetaobjectNode,
        jsStartsWith (getField r "file_url") "http://" = false →
        jsStartsWith (getField r "file_url") "https://" = false →
        getField r "file_data" ≠ "" →
        recordToSource r
          = some (.base64 (getField r "file_data")
              (jsOrS (some (getField r "file_name")) "download.bin"))) ∧
    (∀ r : MetaobjectNode,
        jsStartsWith (getField r "file_url") "http://" = false →
        jsStartsWith (getField r "file_url") "https://" = false →
        getField r "file_data" = "" →
        recordToSource r = none) ∧
    (∀ (w : World) (n fid u fn : String),
        getFileFromMetaobject w.meta fid = some (.url u fn) →
        materialize w (.metaobject n fid)
          = materialize w (.shopifyUrl n u)) ∧
    (∀ (w : World) (n fid d fn : String),
        getFileFromMetaobject w.meta fid = some (.base64 d fn) →
        materialize w (.metaobject n fid)
          = .ok (base64Decode (stripDataHeader d))) ∧
    (∀ (w : World) (n fid : String),
        getFileFromMetaobject w.meta fid = none →
        materialize w (.metaobject n fid)
          = .error "从Metaobject获取文件失败") := by
  refine ⟨?_, ?_, ?_, ?_, ?_, ?_, ?_, ?_⟩
  · intro svc fid r h
    simp [getFileFromMetaobject, h]
  · intro svc fid h
    have hh : (match svc.byHandle fid "uploaded_file" with
        | .ok r => r
        | .error _ => none) = (none : Option MetaobjectNode) := by
      rcases h with h | ⟨e, h⟩ <;> rw [h]
    simp only [getFileFromMetaobject, hh]
    cases hl : svc.listNodes "uploaded_file" 100 with
    | ok nodes =>
      cases hf : findByFileId nodes fid <;> simp [hf]
    | error e => simp
  · intro r h
    have hne : getField r "file_url" ≠ "" := by
      intro h0
      rcases h with h | h <;> rw [h0] at h <;> exact absurd h (by decide)
    rcases h with h | h <;> simp [recordToSource, hne, h]
  · intro r h1 h2 hd
    simp [recordToSource, h1, h2, hd]
  · intro r h1 h2 hd
    simp [recordToSource, h1, h2, hd]
  · intro w n fid u fn h
    simp [materialize, h]
  · intro w n fid d fn h
    simp [materialize, h]
  · intro w n fid h
    simp [materialize, h]

/-- Witness for C3: handle `f1` resolves directly to the URL record and
materializing it delegates to the fetch path; a missing handle falls back
to the list and finds the base64 record, which decodes to the bytes of
`ABC`. -/
theorem getFileFromMetaobject_spec_witness :
    getFileFromMetaobject metaSvcEx "f1" = recordToSource recUrl
    ∧ getFileFromMetaobject metaSvcEx "f2"
        = (findByFileId [recB64] "f2").bind recordToSource
    ∧ recordToSource recUrl = some (.url "https://cdn.example/x" "x.bin")
    ∧ materialize wEx (.metaobject "c.bin" "f2") = .ok [65, 66, 67] := by
  refine ⟨(getFileFromMetaobject_spec).1 metaSvcEx "f1" recUrl (by rfl),
    ?_, ?_, ?_⟩
  · exact (getFileFromMetaobject_spec).2.1 metaSvcEx "f2" (Or.inl (by rfl))
  · exact (getFileFromMetaobject_spec).2.2.1 recUrl (Or.inr (by decide))
  · have h := (getFileFromMetaobject_spec).2.2.2.2.2.2.1 wEx "c.bin" "f2"
      "QUJD" "y.bin" (by rfl)
    rw [h]
    rfl

/-- Counterexample to C9 as stated: in the shared-config `setCorsHeaders`,
a request with NO Origin header but an allow-listed Referer gets that
referer origin echoed instead of the default store domain. -/
theorem configCors_referer_counterexample :
    configCorsAllow none (some "https://happy-july.myshopify.com/products/p1")
      = "https://happy-july.myshopify.com"
    ∧ ("https://happy-july.myshopify.com" : String)
      ≠ "https://sain-pdc-test.myshopify.com" := by decide

/-- Claim C9 (amended): each CORS helper computes an effective origin —
the Origin header for the standalone version; the Origin header falling
back to the parsed Referer origin for the shared-config version — and
sets `Access-Control-Allow-Origin` to it exactly when it is in that
allow-list, else to the default store domain.  The emitted value is
always a member of the allow-list, so an origin outside it is never
echoed. -/
theorem cors_allow_origin_spec (origin referer : Option String) :
    downloadCorsAllow origin ∈ downloadCorsAllowedOrigins ∧
    (∀ o, origin = some o → o ∈ downloadCorsAllowedOrigins →
        downloadCorsAllow origin = o) ∧
    (∀ o, origin = some o → o ∉ downloadCorsAllowedOrigins →
        downloadCorsAllow origin = "https://sain-pdc-test.myshopify.com") ∧
    (origin = none →
        downloadCorsAllow origin = "https://sain-pdc-test.myshopify.com") ∧
    configCorsAllow origin referer ∈ configCorsAllowedOrigins ∧
    (configCorsEffectiveOrigin origin referer ∈ configCorsAllowedOrigins →
        configCorsAllow origin referer
          = configCorsEffectiveOrigin origin referer) ∧
    (configCorsEffectiveOrigin origin referer ∉ configCorsAllowedOrigins →
        configCorsAllow origin referer
          = "https://sain-pdc-test.myshopify.com") ∧
    (∀ o, origin = some o → o ≠ "" →
        configCorsEffectiveOrigin origin referer = o) ∧
    ((origin = none ∨ origin = some "") →
        ∀ r, referer = some r → r ≠ "" → ∀ po, urlOrigin r = some po →
        configCorsEffectiveOrigin origin referer = po) := by
  refine ⟨?_, ?_, ?_, ?_, ?_, ?_, ?_, ?_, ?_⟩
  · cases origin with
    | none => decide
    | some o =>
      by_cases h : o ≠ "" ∧ o ∈ downloadCorsAllowedOrigins
      · have he : downloadCorsAllow (some o) = o := by
          simp only [downloadCorsAllow]
          rw [if_pos h]
        rw [he]
        exact h.2
      · have he : downloadCorsAllow (some o)
            = "https://sain-pdc-test.myshopify.com" := by
          simp only [downloadCorsAllow]
          rw [if_neg h]
        rw [he]
        decide
  · intro o ho hmem
    subst ho
    have hne : o ≠ "" := by
      intro h0
      subst h0
      exact absurd hmem (by decide)
    simp [downloadCorsAllow, hne, hmem]
  · intro o ho hmem
    subst ho
    simp [downloadCorsAllow, hmem]
  · intro h
    subst h
    rfl
  · by_cases h : configCorsEffectiveOrigin origin referer ∈ configCorsAllowedOrigins
    · have he : configCorsAllow origin referer
          = configCorsEffectiveOrigin origin referer := by
        simp only [configCorsAllow]
        rw [if_pos h]
      rw [he]
      exact h
    · have he : configCorsAllow origin referer
          = "https://sain-pdc-test.myshopify.com" := by
        simp only [configCorsAllow]
        rw [if_neg h]
      rw [he]
      decide
  · intro h
    simp only [configCorsAllow]
    rw [if_pos h]
  · intro h
    simp only [configCorsAllow]
    rw [if_neg h]
  · intro o ho hne
    subst ho
    simp [configCorsEffectiveOrigin, hne]
  · intro h r hr hrne po hpo
    have hor : origin.getD "" = "" := by
      rcases h with h | h <;> subst h <;> rfl
    subst hr
    simp [configCorsEffectiveOrigin, hor, hrne, hpo]

/-- Witness for C9 (amended) at concrete origins: an allow-listed origin
is echoed by both helpers, an unlisted one is replaced by the default,
and the referer fallback of the shared helper echoes a parsed
allow-listed referer origin. -/
theorem cors_allow_origin_spec_witness :
    downloadCorsAllow (some "https://shopify-test-brown.vercel.app")
      = "https://shopify-test-brown.vercel.app"
    ∧ downloadCorsAllow (some "https://evil.example")
      = "https://sain-pdc-test.myshopify.com"
    ∧ downloadCorsAllow none = "https://sain-pdc-test.myshopify.com"
    ∧ configCorsEffectiveOrigin none
        (some "https://happy-july.myshopify.com/products/p1")
      = "https://happy-july.myshopify.com" :=
  ⟨(cors_allow_origin_spec (some "https://shopify-test-brown.vercel.app")
      none).2.1 _ rfl (by decide),
   (cors_allow_origin_spec (some "https://evil.example") none).2.2.1 _ rfl
      (by decide),
   (cors_allow_origin_spec none none).2.2.2.1 rfl,
   (cors_allow_origin_spec none
      (some "https://happy-july.myshopify.com/products/p1")).2.2.2.2.2.2.2.2
      (Or.inl rfl) _ rfl (by decide) _ (by decide)⟩

/-- Claim C10: `hasAdminPermission` is true exactly when the admin flag,
stringified and lower-cased, is one of `1`, `true`, `yes` AND the email,
trimmed and lower-cased, is in the admin whitelist; so a whitelisted
email without the flag, or a set flag with an unlisted email, is
rejected. -/
theorem hasAdminPermission_iff (env : Option String) (email : Option String)
    (admin : JsVal) :
    hasAdminPermission env email admin = true ↔
      (jsToLower (adminFlagString admin) ∈ (["1", "true", "yes"] : List String)
        ∧ normalizeEmail email ∈ parseAdminWhitelist env) := by
  unfold hasAdminPermission isAdmin
  simp only []
  rw [normalizeEmail_idem]
  simp [List.contains, List.elem_iff]

/-- Witness for C10: a flagged whitelisted email (with spacing and casing
noise) is accepted; a whitelisted email without the flag, and a flagged
unlisted email, are rejected. -/
theorem hasAdminPermission_iff_witness :
    hasAdminPermission none (some " Jonathan.Wang@sainstore.com ")
        (.str "TRUE") = true
    ∧ hasAdminPermission none (some "jonathan.wang@sainstore.com")
        .undef = false
    ∧ hasAdminPermission none (some "someone@else.com") (.str "1") = false := by
  refine ⟨(hasAdminPermission_iff none
      (some " Jonathan.Wang@sainstore.com ") (.str "TRUE")).mpr
      ⟨by decide, by decide⟩, ?_, ?_⟩
  · rw [Bool.eq_false_iff]
    intro hc
    have h := (hasAdminPermission_iff none
      (some "jonathan.wang@sainstore.com") .undef).mp hc
    exact absurd h.1 (by decide)
  · rw [Bool.eq_false_iff]
    intro hc
    have h := (hasAdminPermission_iff none
      (some "someone@else.com") (.str "1")).mp hc
    exact absurd h.2 (by decide)
